import Mathlib

/-!
Shallow embedding of the protokollfuehrer-agent indexing and retrieval
pipeline (src/indexer.py, src/query_agent.py, src/main.py,
src/protokollfuehrer-agent/indexer.py).

The PostgreSQL table `protokolle` is modelled as a `List Record` in insertion
order.  Provider calls (Gemini embedding / generation) are modelled by
explicit oracles passed as arguments; DB failures that the Python code
catches are modelled by explicit boolean flags selecting the `except` branch.
Embedding vectors are lists of rationals.
-/

namespace Protokoll

/-- One row of the `protokolle` table (src/indexer.py `store_protocol`):
text, embedding vector, and the metadata keys written by
`load_protocol_data` / `main` (`source_file`, `meeting_id`, `content_hash`). -/
structure Record where
  text : String
  embedding : List ℚ
  source_file : String
  meeting_id : String
  content_hash : String
deriving DecidableEq

/-- Number of live rows whose `metadata->>'source_file'` equals `key`. -/
def countKey (store : List Record) (key : String) : ℕ :=
  (store.filter (fun r => r.source_file == key)).length

/-- `get_stored_hash` (src/indexer.py lines 136-145): point lookup of the
stored `content_hash` for a `source_file`.  The Python `except` branch
(lookup failure) is modelled by the flag `db_fail`; the code logs the error
and returns `None`, i.e. `none` here. -/
def get_stored_hash (db_fail : Bool) (store : List Record) (key : String) :
    Option String :=
  if db_fail then none
  else (store.find? (fun r => r.source_file == key)).map (fun r => r.content_hash)

/-- `delete_protocol` (src/indexer.py lines 147-159): `DELETE FROM protokolle
WHERE metadata->>'source_file' = %s` removes every row for that key. -/
def delete_protocol (store : List Record) (key : String) : List Record :=
  store.filter (fun r => !(r.source_file == key))

/-- `store_protocol` (src/indexer.py lines 161-185): returns without writing
when the embedding is empty; otherwise inserts one row.  A storage failure
(`except` branch with rollback) is modelled by `insert_ok = false`, leaving
the store unchanged. -/
def store_protocol (store : List Record) (protocol_text : String)
    (embedding : List ℚ) (src meeting chash : String) (insert_ok : Bool) :
    List Record :=
  if embedding = [] then store
  else if insert_ok then
    store ++ [⟨protocol_text, embedding, src, meeting, chash⟩]
  else store

/-- The transient per-document index decision of §3 of the spec. -/
inductive IndexDecision
  | skip
  | insert
  | replace
deriving DecidableEq

/-- The decision logic inlined in `main` (src/indexer.py lines 222-230):
`stored_hash == current_hash` ⇒ skip; otherwise `stored_hash is not None` ⇒
delete and re-index (replace); otherwise a new file (insert).  Note that in
Python `None == current_hash` is `False`, matching `stored = none` falling
through to the second test. -/
def index_decision (stored_hash : Option String) (current_hash : String) :
    IndexDecision :=
  if stored_hash = some current_hash then .skip
  else if stored_hash.isSome then .replace
  else .insert

/-- Terminal state of one document in the orchestrator (spec §4.4). -/
inductive Outcome
  | skipped
  | inserted
  | replaced
  | failed
deriving DecidableEq

/-- Result of processing one document in `main`'s loop: the store after the
iteration, the terminal state, and which operations actually executed. -/
structure StepResult where
  store : List Record
  outcome : Outcome
  embed_called : Bool
  delete_called : Bool
  insert_called : Bool
deriving DecidableEq

/-- One iteration of `main`'s loop over protocol files
(src/indexer.py lines 206-237): fetch the stored hash, skip on hash match,
delete the old row when one exists, then embed and store.  `embed_result` is
the value returned by `get_embedding` ( `[]` after retry exhaustion or a
permanent error) and `insert_ok` selects `store_protocol`'s success branch. -/
def process_document (embed_result : List ℚ) (insert_ok : Bool)
    (store : List Record) (src protocol_text current_hash meeting : String) :
    StepResult :=
  if get_stored_hash false store src = some current_hash then
    ⟨store, .skipped, false, false, false⟩
  else if (get_stored_hash false store src).isSome then
    ⟨store_protocol (delete_protocol store src) protocol_text embed_result
        src meeting current_hash insert_ok,
      (if embed_result = [] then .failed
        else if insert_ok then Outcome.replaced else .failed),
      true, true, !embed_result.isEmpty && insert_ok⟩
  else
    ⟨store_protocol store protocol_text embed_result src meeting current_hash
        insert_ok,
      (if embed_result = [] then .failed
        else if insert_ok then Outcome.inserted else .failed),
      true, false, !embed_result.isEmpty && insert_ok⟩

/-- One iteration of `main`'s loop with the two swallowed DB failures made
explicit.  `lookup_fail` selects `get_stored_hash`'s `except` branch
(src/indexer.py lines 143-145): the exception is logged and `None` is
returned, so `main` sees "not indexed" and takes the insert branch.
`delete_fail` selects `delete_protocol`'s `except` branch (lines 157-159):
the delete is rolled back, yet `main` continues to embed and store.
`process_document` is the special case with both flags false. -/
def process_document_env (lookup_fail delete_fail : Bool)
    (embed_result : List ℚ) (insert_ok : Bool) (store : List Record)
    (src protocol_text current_hash meeting : String) : StepResult :=
  if get_stored_hash lookup_fail store src = some current_hash then
    ⟨store, .skipped, false, false, false⟩
  else if (get_stored_hash lookup_fail store src).isSome then
    ⟨store_protocol
        (if delete_fail then store else delete_protocol store src)
        protocol_text embed_result src meeting current_hash insert_ok,
      (if embed_result = [] then .failed
        else if insert_ok then Outcome.replaced else .failed),
      true, true, !embed_result.isEmpty && insert_ok⟩
  else
    ⟨store_protocol store protocol_text embed_result src meeting current_hash
        insert_ok,
      (if embed_result = [] then .failed
        else if insert_ok then Outcome.inserted else .failed),
      true, false, !embed_result.isEmpty && insert_ok⟩

/-! ### Embedding generator with retry (src/indexer.py `get_embedding`) -/

/-- Outcome of one `genai.embed_content` call, as classified by
`get_embedding`'s `except` branch: success, a rate-limit/quota signal
(message containing "429" / "Quota exceeded" / "Resource has been
exhausted"), or any other exception. -/
inductive EmbedResponse
  | ok (v : List ℚ)
  | rate_limited
  | other_error
deriving DecidableEq

/-- `max_retries` in `get_embedding` (src/indexer.py line 92). -/
def max_retries : ℕ := 3

/-- The `for attempt in range(max_retries)` loop of `get_embedding`
(src/indexer.py lines 93-117), with the provider modelled as an oracle from
attempt number to response; `remaining` counts the loop iterations still
available (`max_retries - attempt`).  Returns the vector, the number of
attempts made, and the list of backoff sleeps (`2 ** attempt` seconds)
performed.  `remaining = 0` is the `return []` after the loop. -/
def get_embedding_loop (provider : ℕ → EmbedResponse) :
    (attempt remaining : ℕ) → List ℚ × ℕ × List ℕ
  | attempt, 0 => ([], attempt, [])
  | attempt, remaining + 1 =>
    match provider attempt with
    | .ok v => (v, attempt + 1, [])
    | .rate_limited =>
      if attempt < max_retries - 1 then
        let rest := get_embedding_loop provider (attempt + 1) remaining
        (rest.1, rest.2.1, 2 ^ attempt :: rest.2.2)
      else ([], attempt + 1, [])
    | .other_error => ([], attempt + 1, [])

/-- `get_embedding(text)` (src/indexer.py lines 85-117): run the retry loop
from attempt 0 with `max_retries` iterations available.  The provider oracle
may inspect the text. -/
def get_embedding (text : String) (provider : String → ℕ → EmbedResponse) :
    List ℚ × ℕ × List ℕ :=
  get_embedding_loop (provider text) 0 max_retries

/-! ### The batch loop of `main` (src/indexer.py lines 206-237) -/

/-- One document as seen by an iteration of `main`'s loop, together with the
environment behaviour for that iteration: the value `get_embedding` will
return for it and whether the store write succeeds. -/
structure DocInput where
  source_file : String
  protocol_text : String
  current_hash : String
  meeting_id : String
  embed_result : List ℚ
  insert_ok : Bool
deriving DecidableEq

/-- The `for filepath in protocol_files` loop: each document is processed by
`process_document` on the store left by its predecessors, and the loop
always continues to the next document (every handler in the body catches
its own exceptions).  Returns the final store and the per-document terminal
states in order. -/
def process_batch : List Record → List DocInput → List Record × List Outcome
  | store, [] => (store, [])
  | store, d :: rest =>
    (
      (process_batch
        (process_document d.embed_result d.insert_ok store d.source_file
          d.protocol_text d.current_hash d.meeting_id).store rest).1,
      (process_document d.embed_result d.insert_ok store d.source_file
          d.protocol_text d.current_hash d.meeting_id).outcome ::
        (process_batch
          (process_document d.embed_result d.insert_ok store d.source_file
            d.protocol_text d.current_hash d.meeting_id).store rest).2)

/-! ### Nearest-neighbour retrieval (src/query_agent.py lines 100-123)

The SQL `ORDER BY embedding <-> %s LIMIT 3` delegates ranking to pgvector's
L2 distance.  Ordering vectors by L2 distance is the same as ordering them
by squared L2 distance, which stays inside ℚ. -/

/-- Squared L2 distance between two vectors. -/
def l2_dist_sq (u v : List ℚ) : ℚ :=
  (List.zipWith (fun a b => (a - b) * (a - b)) u v).sum

/-- `a` is at most as far from the query vector `q` as `b` — the comparison
underlying `ORDER BY embedding <-> q`. -/
def nearer (q : List ℚ) (a b : Record) : Prop :=
  l2_dist_sq a.embedding q ≤ l2_dist_sq b.embedding q

instance nearer_dec (q : List ℚ) : DecidableRel (nearer q) := fun a b =>
  inferInstanceAs
    (Decidable (l2_dist_sq a.embedding q ≤ l2_dist_sq b.embedding q))

instance nearer_total (q : List ℚ) : IsTotal Record (nearer q) :=
  ⟨fun _ _ => le_total _ _⟩

instance nearer_trans (q : List ℚ) : IsTrans Record (nearer q) :=
  ⟨fun _ _ _ => le_trans⟩

/-- `SELECT ... ORDER BY embedding <-> q LIMIT k`: the store rows sorted
nearest-first (stably, so ties keep insertion order), truncated to `k`. -/
def query_nearest (store : List Record) (q : List ℚ) (k : ℕ) : List Record :=
  (List.insertionSort (nearer q) store).take k

/-! ### Answer composer (src/query_agent.py `retrieve_and_generate`) -/

/-- The three return shapes of `retrieve_and_generate`: the early return when
the query embedding is empty, the canned no-results return, and a generated
answer. -/
inductive RagResult
  | embed_failed (msg : String)
  | no_results (msg : String)
  | answer (text : String)
deriving DecidableEq

/-- The canned message of src/query_agent.py line 119 (the query is spliced
into the sentence). -/
def no_results_message (query : String) : String :=
  "Ich konnte keine Protokolle finden, die sich auf " ++ query
    ++ " beziehen."

/-- The context block of src/query_agent.py line 122: one tagged entry per
retrieved row, joined by separators (no `date` key is ever written by the
indexer, so the Python `.get` default applies). -/
def build_context (results : List Record) : String :=
  String.intercalate "\n---\n"
    (results.map (fun r =>
      "Protokoll (" ++ r.meeting_id ++ ", N/A): " ++ r.text))

/-- The generation prompt of src/query_agent.py lines 132-136. -/
def build_prompt (results : List Record) (query : String) : String :=
  "Antworte auf die Frage des Benutzers basierend auf dem folgenden "
    ++ "Kontext:\n\nKONTEXT:\n" ++ build_context results
    ++ "\n\nBENUTZERFRAGE: " ++ query

/-- `retrieve_and_generate` (src/query_agent.py lines 88-149): embed the
query (the result is passed in as `query_embedding`), retrieve the top 3
rows, and either return early (empty embedding), return the canned
no-results message, or call the generative model once.  The second
component counts invocations of the generative model. -/
def retrieve_and_generate (store : List Record) (query : String)
    (query_embedding : List ℚ) (generate : String → String) :
    RagResult × ℕ :=
  if query_embedding = [] then
    (.embed_failed ("Entschuldigung, die Suchanfrage konnte aufgrund "
      ++ "eines API-Fehlers nicht verarbeitet werden."), 0)
  else if query_nearest store query_embedding 3 = [] then
    (.no_results (no_results_message query), 0)
  else
    (.answer (generate
      (build_prompt (query_nearest store query_embedding 3) query)), 1)

/-! ### The protokoll_wissen variant
(src/protokollfuehrer-agent/indexer.py) -/

/-- One row of `public.protokoll_wissen` (content and embedding; the serial
id and timestamp carry no logic). -/
structure WissenRecord where
  content : String
  embedding : List ℚ
deriving DecidableEq

/-- `initial_rules` (src/protokollfuehrer-agent/indexer.py lines 15-20). -/
def initial_rules : List String :=
  ["Die Zugangsdateien müssen für die zwei Arbeitsplätze GESONDERT "
      ++ "behandelt werden, um Verbindungsprobleme zu vermeiden.",
    "Die Datenbankstruktur ist auf das Speichern von Daten als JSONB "
      ++ "festgelegt.",
    "Das Team besteht aus vier Rollen (Architekt/Sie, Entwicklungsleiter/"
      ++ "Gemini, Code-Entwickler/Jules, Gedächtnis/Protokollführer). "
      ++ "Jules hat KEINEN Zugriff auf lokale Datenbanken.",
    "Wir kämpfen derzeit mit der Aktenverwaltung und können keine stabilen "
      ++ "Daten aus dem physischen Server schreiben."]

/-- `DELETE FROM public.protokoll_wissen;`
(src/protokollfuehrer-agent/indexer.py line 64): every existing row goes. -/
def clear_wissen (_store : List WissenRecord) : List WissenRecord := []

/-- `main` of src/protokollfuehrer-agent/indexer.py (lines 61-86): clear the
table, then embed and insert each fixed rule in order.  `embed` is the
provider oracle. -/
def wissen_indexer_main (prev : List WissenRecord)
    (embed : String → List ℚ) : List WissenRecord :=
  initial_rules.foldl (fun acc rule_text => acc ++ [⟨rule_text, embed rule_text⟩])
    (clear_wissen prev)

end Protokoll

namespace Protokoll

/-- **C3** — Index decision rule: absent stored fingerprint gives `insert`,
an equal fingerprint gives `skip`, and a different fingerprint gives
`replace`. -/
theorem index_decision_rule :
    (∀ c : String, index_decision none c = .insert) ∧
    (∀ c : String, index_decision (some c) c = .skip) ∧
    (∀ s c : String, s ≠ c → index_decision (some s) c = .replace) := by
  refine ⟨fun c => rfl, fun c => by simp [index_decision], fun s c hne => ?_⟩
  simp [index_decision, hne]

/-- Witness for C3 at concrete fingerprints. -/
theorem index_decision_rule_witness :
    index_decision none "h1" = .insert ∧
    index_decision (some "h1") "h1" = .skip ∧
    index_decision (some "h1") "h2" = .replace :=
  ⟨index_decision_rule.1 "h1", index_decision_rule.2.1 "h1",
    index_decision_rule.2.2 "h1" "h2" (by decide)⟩

/-- **C6** — Empty-vector write rejection: `store_protocol` called with an
empty embedding leaves the store unchanged, for every store, text, metadata
and DB outcome — a placeholder record is never persisted. -/
theorem store_protocol_empty_embedding (store : List Record)
    (protocol_text src meeting chash : String) (insert_ok : Bool) :
    store_protocol store protocol_text [] src meeting chash insert_ok = store := by
  simp [store_protocol]

/-- **C2** — Retry bound: for every input text, a provider that answers every
attempt with a rate-limit signal yields exactly 3 attempts, backoff sleeps of
1s then 2s (doubling) between them, and an empty vector as the overall
result — the loop returns normally, no exception propagates. -/
theorem get_embedding_retry_bound (text : String) :
    get_embedding text (fun _ _ => .rate_limited) = ([], 3, [2 ^ 0, 2 ^ 1]) :=
  rfl

/-! ### Counting lemmas for the per-key uniqueness invariant -/

theorem countKey_cons (r : Record) (s : List Record) (key : String) :
    countKey (r :: s) key
      = (if r.source_file = key then 1 else 0) + countKey s key := by
  by_cases h : r.source_file = key <;>
    simp [countKey, List.filter_cons, h, Nat.add_comm]

theorem countKey_append (s t : List Record) (key : String) :
    countKey (s ++ t) key = countKey s key + countKey t key := by
  simp [countKey, List.filter_append]

theorem countKey_eq_zero_forall {s : List Record} {key : String}
    (h : countKey s key = 0) : ∀ r ∈ s, r.source_file ≠ key := by
  induction s with
  | nil => simp
  | cons a s ih =>
    rw [countKey_cons] at h
    by_cases ha : a.source_file = key
    · simp [ha] at h
    · intro r hr
      rcases List.mem_cons.mp hr with rfl | hr
      · exact ha
      · exact ih (by omega) r hr

theorem get_stored_hash_eq_none {s : List Record} {key : String}
    (h : countKey s key = 0) : get_stored_hash false s key = none := by
  have hall := countKey_eq_zero_forall h
  have : s.find? (fun r => r.source_file == key) = none := by
    rw [List.find?_eq_none]
    intro r hr
    simpa using hall r hr
  simp [get_stored_hash, this]

theorem get_stored_hash_append_last {s : List Record} {key : String}
    (r : Record) (h0 : countKey s key = 0) (hr : r.source_file = key) :
    get_stored_hash false (s ++ [r]) key = some r.content_hash := by
  induction s with
  | nil => simp [get_stored_hash, List.find?, hr]
  | cons a s ih =>
    rw [countKey_cons] at h0
    by_cases ha : a.source_file = key
    · simp [ha] at h0
    · have h0s : countKey s key = 0 := by omega
      have := ih h0s
      simp only [get_stored_hash, if_neg (by simp : ¬(False = True))] at this ⊢
      simpa [List.find?_cons, ha] using this

theorem countKey_eq_zero_of_hash_none {s : List Record} {key : String}
    (h : get_stored_hash false s key = none) : countKey s key = 0 := by
  have hfind : s.find? (fun r => r.source_file == key) = none := by
    cases hf : s.find? (fun r => r.source_file == key) with
    | none => rfl
    | some r => simp [get_stored_hash, hf] at h
  rw [List.find?_eq_none] at hfind
  have hnil : s.filter (fun r => r.source_file == key) = [] := by
    rw [List.filter_eq_nil_iff]
    exact hfind
  simp [countKey, hnil]

theorem countKey_delete_self (s : List Record) (key : String) :
    countKey (delete_protocol s key) key = 0 := by
  induction s with
  | nil => rfl
  | cons a s ih =>
    simp only [delete_protocol] at ih ⊢
    rw [List.filter_cons]
    by_cases ha : a.source_file = key
    · rw [if_neg (by simp [ha])]
      exact ih
    · rw [if_pos (by simp [ha]), countKey_cons, ih, if_neg ha]

theorem countKey_delete_other (s : List Record) {key key' : String}
    (h : key' ≠ key) :
    countKey (delete_protocol s key) key' = countKey s key' := by
  induction s with
  | nil => rfl
  | cons a s ih =>
    simp only [delete_protocol] at ih ⊢
    rw [List.filter_cons]
    by_cases ha : a.source_file = key
    · have ha' : a.source_file ≠ key' := by
        rw [ha]; exact fun hk => h hk.symm
      rw [if_neg (by simp [ha]), ih, countKey_cons, if_neg ha']
      omega
    · rw [if_pos (by simp [ha]), countKey_cons, countKey_cons, ih]

/-- **C1** — Idempotence of indexing: starting from a store with no live
record for `src`, indexing a document whose embedding succeeds inserts it
(exactly one live record), and a second run on the same byte content (hence
the same SHA-256 fingerprint `chash`) takes the skip branch: the store is
unchanged, the outcome is `skipped`, and no delete, no embedding call and no
insert happen — whatever the second run's provider or DB would have done. -/
theorem indexing_idempotent (s0 : List Record)
    (src ptext chash meeting : String) (e1 e2 : List ℚ) (ok2 : Bool)
    (h0 : countKey s0 src = 0) (he : e1 ≠ []) :
    (process_document e1 true s0 src ptext chash meeting).outcome
        = .inserted ∧
    countKey (process_document e1 true s0 src ptext chash meeting).store src
        = 1 ∧
    process_document e2 ok2
        (process_document e1 true s0 src ptext chash meeting).store
        src ptext chash meeting
      = ⟨(process_document e1 true s0 src ptext chash meeting).store,
          .skipped, false, false, false⟩ := by
  have hnone := get_stored_hash_eq_none h0
  have hstep : process_document e1 true s0 src ptext chash meeting
      = ⟨s0 ++ [⟨ptext, e1, src, meeting, chash⟩], .inserted, true, false,
          true⟩ := by
    simp [process_document, hnone, store_protocol, he, List.isEmpty_iff]
  refine ⟨by rw [hstep], ?_, ?_⟩
  · rw [hstep]
    show countKey (s0 ++ [⟨ptext, e1, src, meeting, chash⟩]) src = 1
    rw [countKey_append, h0, countKey_cons]
    simp [countKey]
  · have hfound : get_stored_hash false
        (s0 ++ [⟨ptext, e1, src, meeting, chash⟩]) src
        = some chash :=
      get_stored_hash_append_last _ h0 rfl
    rw [hstep]
    show process_document e2 ok2 (s0 ++ [⟨ptext, e1, src, meeting, chash⟩])
        src ptext chash meeting = _
    unfold process_document
    rw [if_pos hfound]

/-- Store states reachable from the empty table by runs of the indexing
loop body (`process_document`), with arbitrary embedding results and insert
outcomes per step but with every stored-hash lookup and every delete
succeeding. -/
inductive Reachable : List Record → Prop
  | base : Reachable []
  | step (e : List ℚ) (ok : Bool) (s : List Record)
      (src ptext chash meeting : String) : Reachable s →
      Reachable (process_document e ok s src ptext chash meeting).store

/-- Store states reachable from the empty table by runs of the full loop
body (`process_document_env`), i.e. additionally through iterations whose
stored-hash lookup or delete fails and is swallowed. -/
inductive ReachableEnv : List Record → Prop
  | base : ReachableEnv []
  | step (lf df : Bool) (e : List ℚ) (ok : Bool) (s : List Record)
      (src ptext chash meeting : String) : ReachableEnv s →
      ReachableEnv
        (process_document_env lf df e ok s src ptext chash meeting).store

/-- With both DB failure flags off, the full loop body coincides with
`process_document`. -/
theorem process_document_env_false_false (e : List ℚ) (ok : Bool)
    (s : List Record) (src ptext chash meeting : String) :
    process_document_env false false e ok s src ptext chash meeting
      = process_document e ok s src ptext chash meeting := rfl

theorem countKey_store_protocol_le (store : List Record)
    (ptext : String) (e : List ℚ) (src meeting chash : String) (ok : Bool)
    (key : String) :
    countKey (store_protocol store ptext e src meeting chash ok) key
      ≤ countKey store key + (if src = key then 1 else 0) := by
  unfold store_protocol
  by_cases h1 : e = []
  · rw [if_pos h1]; omega
  · rw [if_neg h1]
    cases ok with
    | false =>
      rw [if_neg (by decide)]; omega
    | true =>
      rw [if_pos rfl, countKey_append, countKey_cons]
      by_cases hk : src = key <;> simp [countKey, hk]

theorem countKey_process_document_le (e : List ℚ) (ok : Bool)
    (s : List Record) (src ptext chash meeting key : String)
    (h : countKey s key ≤ 1) :
    countKey (process_document e ok s src ptext chash meeting).store key
      ≤ 1 := by
  unfold process_document
  by_cases hskip : get_stored_hash false s src = some chash
  · rw [if_pos hskip]; exact h
  · rw [if_neg hskip]
    by_cases hrep : (get_stored_hash false s src).isSome
    · rw [if_pos hrep]
      have hle := countKey_store_protocol_le (delete_protocol s src) ptext e
        src meeting chash ok key
      by_cases hk : src = key
      · subst hk
        rw [countKey_delete_self, if_pos rfl] at hle
        simpa using hle
      · rw [countKey_delete_other s (fun hkk => hk hkk.symm), if_neg hk]
          at hle
        dsimp only
        omega
    · rw [if_neg hrep]
      have hle := countKey_store_protocol_le s ptext e src meeting chash ok
        key
      by_cases hk : src = key
      · subst hk
        have hz : countKey s src = 0 :=
          countKey_eq_zero_of_hash_none
            (Option.not_isSome_iff_eq_none.mp hrep)
        rw [hz, if_pos rfl] at hle
        simpa using hle
      · rw [if_neg hk] at hle
        dsimp only
        omega

/-- **C5** (amended) — Uniqueness invariant on the failure-free paths: every
store state reachable from the empty table through indexing operations whose
stored-hash lookup and delete succeed (skip, insert, or replace via
delete-then-insert, including failed embeddings and rolled-back inserts) has
at most one live record per `source_key`.  As originally claimed — over all
states the program can reach — the invariant is false: an iteration whose
stored-hash lookup fails and is swallowed inserts a duplicate live record
(see the C5 counterexample below). -/
theorem at_most_one_live_record_per_key (s : List Record)
    (h : Reachable s) (key : String) : countKey s key ≤ 1 := by
  induction h with
  | base => simp [countKey]
  | step e ok s' src ptext chash meeting _ ih =>
    exact countKey_process_document_le e ok s' src ptext chash meeting key ih

/-- Witness for C5: one insert step from the empty store. -/
theorem at_most_one_live_record_per_key_witness :
    countKey (process_document [(1 : ℚ)] true [] "p.txt" "t" "h" "m").store
      "p.txt" ≤ 1 :=
  at_most_one_live_record_per_key _
    (Reachable.step [(1 : ℚ)] true [] "p.txt" "t" "h" "m" Reachable.base)
    "p.txt"

/-- **C5** — counterexample to the claim as stated: the program can reach a
store with TWO live records for `p.txt`.  A normal insert is followed by an
iteration on the same unchanged file whose stored-hash lookup raises and is
swallowed (src/indexer.py lines 143-145): `main` sees `None`, takes the
new-file branch, and inserts a duplicate — the double-indexing of C9. -/
theorem uniqueness_invariant_counterexample :
    ReachableEnv
      [⟨"t", [(1 : ℚ)], "p.txt", "m", "h1"⟩,
        ⟨"t", [(1 : ℚ)], "p.txt", "m", "h1"⟩] ∧
    countKey
      [⟨"t", [(1 : ℚ)], "p.txt", "m", "h1"⟩,
        ⟨"t", [(1 : ℚ)], "p.txt", "m", "h1"⟩] "p.txt" = 2 := by
  constructor
  · have h1 : (process_document_env false false [(1 : ℚ)] true []
        "p.txt" "t" "h1" "m").store
        = [⟨"t", [(1 : ℚ)], "p.txt", "m", "h1"⟩] := by decide
    have h2 : (process_document_env true false [(1 : ℚ)] true
        [⟨"t", [(1 : ℚ)], "p.txt", "m", "h1"⟩] "p.txt" "t" "h1" "m").store
        = [⟨"t", [(1 : ℚ)], "p.txt", "m", "h1"⟩,
            ⟨"t", [(1 : ℚ)], "p.txt", "m", "h1"⟩] := by decide
    rw [← h2]
    apply ReachableEnv.step
    rw [← h1]
    exact ReachableEnv.step false false [(1 : ℚ)] true [] "p.txt" "t" "h1"
      "m" ReachableEnv.base
  · decide

/-- Witness for C1 at a concrete document and empty initial store. -/
theorem indexing_idempotent_witness :
    (process_document [(1 : ℚ)] true [] "p.txt" "t" "h" "m").outcome
        = .inserted ∧
    countKey (process_document [(1 : ℚ)] true [] "p.txt" "t" "h" "m").store
        "p.txt" = 1 ∧
    process_document [] false
        (process_document [(1 : ℚ)] true [] "p.txt" "t" "h" "m").store
        "p.txt" "t" "h" "m"
      = ⟨(process_document [(1 : ℚ)] true [] "p.txt" "t" "h" "m").store,
          .skipped, false, false, false⟩ :=
  indexing_idempotent [] "p.txt" "t" "h" "m" [(1 : ℚ)] [] false (by decide)
    (by decide)

/-- **C4** — Batch resilience: the loop emits one terminal state per
document no matter which documents fail (it never aborts), and in the
concrete 3-document batch where document 2's embedding permanently fails,
documents 1 and 3 are still inserted and the batch outcome is
`[inserted, failed, inserted]`. -/
theorem batch_resilience :
    (∀ (store : List Record) (docs : List DocInput),
      (process_batch store docs).2.length = docs.length) ∧
    process_batch []
        [⟨"p1", "t1", "h1", "m1", [(1 : ℚ)], true⟩,
          ⟨"p2", "t2", "h2", "m2", [], true⟩,
          ⟨"p3", "t3", "h3", "m3", [(1 : ℚ)], true⟩]
      = ([⟨"t1", [(1 : ℚ)], "p1", "m1", "h1"⟩,
            ⟨"t3", [(1 : ℚ)], "p3", "m3", "h3"⟩],
          [.inserted, .failed, .inserted]) := by
  constructor
  · intro store docs
    induction docs generalizing store with
    | nil => rfl
    | cons d rest ih => simp [process_batch, ih]
  · decide

/-- **C7** — Retrieval ordering: `query_nearest` returns at most `k` rows,
ordered nearest-first under the store's distance metric; and concretely,
with a stored vector at distance 0.1 and one at distance 0.3 from the query
vector, the nearer one is returned first even though it was inserted
second. -/
theorem query_nearest_ordering :
    (∀ (store : List Record) (q : List ℚ) (k : ℕ),
      (query_nearest store q k).length ≤ k ∧
      List.Sorted (nearer q) (query_nearest store q k)) ∧
    query_nearest
        [⟨"t2", [(3 : ℚ)/10], "s2", "m2", "h2"⟩,
          ⟨"t1", [(1 : ℚ)/10], "s1", "m1", "h1"⟩]
        [(0 : ℚ)] 3
      = [⟨"t1", [(1 : ℚ)/10], "s1", "m1", "h1"⟩,
          ⟨"t2", [(3 : ℚ)/10], "s2", "m2", "h2"⟩] := by
  refine ⟨fun store q k => ⟨List.length_take_le k _, ?_⟩, ?_⟩
  · exact List.Pairwise.sublist (List.take_sublist k _)
      (List.sorted_insertionSort (nearer q) store)
  · show (List.insertionSort _ _).take 3 = _
    norm_num [List.insertionSort, List.orderedInsert, nearer, l2_dist_sq]

/-- **C8** — Empty-store behaviour of the answer composer: when the query
embedding succeeded but the nearest-neighbour query returns zero rows, the
composer returns the canned no-results message through the normal
`no_results` return (not the error returns) and the generative model is
invoked zero times. -/
theorem composer_empty_store (query : String) (query_embedding : List ℚ)
    (generate : String → String) (h : query_embedding ≠ []) :
    retrieve_and_generate [] query query_embedding generate
      = (.no_results (no_results_message query), 0) := by
  unfold retrieve_and_generate
  rw [if_neg h,
    if_pos (show query_nearest [] query_embedding 3 = [] from rfl)]

/-- Witness for C8 at a concrete question and query embedding. -/
theorem composer_empty_store_witness :
    retrieve_and_generate [] "Frage" [(1 : ℚ)] (fun p => p)
      = (.no_results (no_results_message "Frage"), 0) :=
  composer_empty_store "Frage" [(1 : ℚ)] (fun p => p) (by decide)

/-- **C9** — the code evaluated at the failing input: on a store that holds
a live record for `p.txt` with hash `h1`, a failed lookup (`db_fail = true`,
the `except` branch of `get_stored_hash`) returns `none` — exactly the
value returned for a key that was never indexed — and the decision derived
from it is `insert` even though the stored content is unchanged.  The
failure is swallowed, not surfaced. -/
theorem lookup_failure_conflated :
    get_stored_hash true [⟨"t", [(1 : ℚ)], "p.txt", "m", "h1"⟩] "p.txt"
        = none ∧
    get_stored_hash false [] "p.txt" = none ∧
    index_decision
        (get_stored_hash true [⟨"t", [(1 : ℚ)], "p.txt", "m", "h1"⟩] "p.txt")
        "h1"
      = .insert := by
  decide

theorem foldl_push_eq_append_map {α β : Type} (f : α → β) :
    ∀ (l : List α) (acc : List β),
      l.foldl (fun a t => a ++ [f t]) acc = acc ++ l.map f
  | [], acc => by simp
  | t :: l, acc => by
    simp [List.foldl_cons, foldl_push_eq_append_map f l]

/-- **C10** — Destructive re-run of the rule-store variant: every run of
the protokoll_wissen indexer first deletes all previously stored rows and
then inserts exactly the fixed rule list (re-embedded), so the resulting
store never depends on the previous one — no record survives and no
content-change detection happens. -/
theorem wissen_indexer_destructive (prev : List WissenRecord)
    (embed : String → List ℚ) :
    clear_wissen prev = [] ∧
    wissen_indexer_main prev embed
      = initial_rules.map (fun t => ⟨t, embed t⟩) := by
  refine ⟨rfl, ?_⟩
  unfold wissen_indexer_main clear_wissen
  rw [foldl_push_eq_append_map]
  simp

end Protokoll
